import Mathlib

/-!
# helm-it: chart acquisition and extraction pipeline

A shallow embedding of `main.go` (package `main` of paulczar/helm-it) and of the
Unix `path/filepath` functions it calls (`Clean`, `Join`, `Base`, `Dir`).

Go strings are modelled as `List Char`; the operating system, the network, the
tar/gzip readers, the JSON codec and the helm engine are modelled as an
environment record `Env` whose fields give the outcome of each external call.
Handlers return an `Outcome`: the HTTP response written, the list of external
calls made, and the paths present in the filesystem when the handler returns.
-/

namespace HelmIt

/-- Go `string`, as the list of its characters. -/
abbrev Str := List Char

/-! ## `path/filepath` on Unix -/

/-- The constant `filepath.Separator` on Unix. -/
def Separator : Char := '/'

/-- The function `os.IsPathSeparator` on Unix. -/
def IsPathSeparator (c : Char) : Bool := c == Separator

/-- Inner loop of the `..` case of `filepath.Clean`: after the first `out.w--`,
`for out.w > dotdot && !os.IsPathSeparator(out.index(out.w)) { out.w-- }`.
`buf` is the buffer content before backtracking, the argument is `out.w`. -/
def backtrackLoop (buf : Str) (dotdot : Nat) : Nat → Nat
  | 0 => 0
  | w + 1 =>
    if w + 1 > dotdot && !IsPathSeparator (buf.getD (w + 1) Separator) then
      backtrackLoop buf dotdot w
    else w + 1

/-- Main loop `for r < n { switch ... }` of `filepath.Clean`. The read index `r` is
represented by the unread rest of the path, the lazy buffer by its content `out`
(so `out.w = out.length`); the result is `out` and `dotdot` at loop exit. Each
iteration consumes at least one character, so the fuel `path.length` given by
`Clean` is never exhausted (`cleanLoop_fuel`). -/
def cleanLoop (rooted : Bool) : Nat → Str → Str → Nat → Str × Nat
  | 0, _, out, dotdot => (out, dotdot)
  | _ + 1, [], out, dotdot => (out, dotdot)
  | fuel + 1, c :: rest, out, dotdot =>
    if IsPathSeparator c then
      -- empty path element
      cleanLoop rooted fuel rest out dotdot
    else if c == '.' && (rest.isEmpty || IsPathSeparator (rest.headD Separator)) then
      -- . element
      cleanLoop rooted fuel rest out dotdot
    else if c == '.' && rest.headD Separator == '.' &&
        (rest.tail.isEmpty || IsPathSeparator (rest.tail.headD Separator)) then
      -- .. element: remove to last separator
      if out.length > dotdot then
        -- can backtrack
        cleanLoop rooted fuel rest.tail
          (out.take (backtrackLoop out dotdot (out.length - 1))) dotdot
      else if !rooted then
        -- cannot backtrack, but not rooted, so append .. element.
        let out1 := (if out.length > 0 then out ++ [Separator] else out) ++ ['.', '.']
        cleanLoop rooted fuel rest.tail out1 out1.length
      else
        cleanLoop rooted fuel rest.tail out dotdot
    else
      -- real path element: add slash if needed, then copy element
      let out1 :=
        if (rooted && out.length != 1) || (!rooted && out.length != 0) then
          out ++ [Separator]
        else out
      cleanLoop rooted fuel ((c :: rest).dropWhile (fun x => !IsPathSeparator x))
        (out1 ++ (c :: rest).takeWhile (fun x => !IsPathSeparator x)) dotdot

/-- The function `filepath.Clean` on Unix (no volume name). -/
def Clean (path : Str) : Str :=
  if path.isEmpty then ['.']
  else
    let rooted := IsPathSeparator (path.headD '.')
    let out :=
      if rooted then (cleanLoop rooted path.length path.tail [Separator] 1).1
      else (cleanLoop rooted path.length path [] 0).1
    -- Turn empty string into "."
    if out.length == 0 then ['.'] else out

/-- The function `strings.Join(elem, sep)`. -/
def stringsJoin (elem : List Str) (sep : Str) : Str :=
  match elem with
  | [] => []
  | [e] => e
  | e :: es => e ++ sep ++ stringsJoin es sep

/-- The function `filepath.Join` on Unix: leading empty elements are ignored, the rest
is joined with the separator and cleaned; all elements empty gives the empty string. -/
def Join (elem : List Str) : Str :=
  match elem with
  | [] => []
  | e :: es => if e != [] then Clean (stringsJoin (e :: es) [Separator]) else Join es

/-- Strip trailing slashes: `for len(path) > 0 && os.IsPathSeparator(path[len(path)-1])`. -/
def stripTrailingSeparators (path : Str) : Str :=
  (path.reverse.dropWhile IsPathSeparator).reverse

/-- The text after the last separator of `path` (the whole of it when there is none):
`i := len(path)-1; for i >= 0 && !os.IsPathSeparator(path[i]) { i-- }; path[i+1:]`. -/
def lastElement (path : Str) : Str :=
  (path.reverse.takeWhile (fun x => !IsPathSeparator x)).reverse

/-- The text up to and including the last separator of `path`: `path[:i+1]` for the
same `i`. -/
def uptoLastSeparator (path : Str) : Str :=
  (path.reverse.dropWhile (fun x => !IsPathSeparator x)).reverse

/-- The function `filepath.Base` on Unix. -/
def Base (path : Str) : Str :=
  if path.isEmpty then ['.']
  else
    let path1 := lastElement (stripTrailingSeparators path)
    -- If empty now, it had only slashes.
    if path1.isEmpty then [Separator] else path1

/-- The function `filepath.Dir` on Unix. -/
def Dir (path : Str) : Str := Clean (uptoLastSeparator path)

/-- The function `filepath.IsAbs` on Unix: `strings.HasPrefix(path, "/")`. -/
def IsAbs (path : Str) : Bool := path.headD '.' == Separator

/-- The function `strings.HasSuffix`:
`len(s) >= len(suffix) && s[len(s)-len(suffix):] == suffix`. -/
def HasSuffix (s suffix : Str) : Bool :=
  decide (s.length ≥ suffix.length) && s.drop (s.length - suffix.length) == suffix

/-! ## Data model of `main.go` -/

/-- The struct `RequestPayload`: a chart URL and optional override values (`none` is
the nil map). `V` stands for `map[string]interface{}`. -/
structure RequestPayload (V : Type) where
  ChartURL : Str
  Values : Option V

/-- The struct `ResponsePayload`; the JSON tags are applied by `jsonFields`. -/
structure ResponsePayload where
  Templates : Str
  Values : Str
  ValuesExist : Bool
deriving DecidableEq, Repr

/-- What a handler wrote to its `http.ResponseWriter`. -/
structure Response where
  status : Nat
  contentType : Str
  body : Str
deriving DecidableEq, Repr

/-- The constant `http.StatusOK`. -/
def StatusOK : Nat := 200

/-- The constant `http.StatusBadRequest`. -/
def StatusBadRequest : Nat := 400

/-- The constant `http.StatusMethodNotAllowed`. -/
def StatusMethodNotAllowed : Nat := 405

/-- The constant `http.StatusInternalServerError`. -/
def StatusInternalServerError : Nat := 500

/-- The function `http.Error(w, msg, code)`: plain-text content type, the status
code, and the message followed by a newline as body. -/
def httpError (msg : Str) (code : Nat) : Response :=
  { status := code, contentType := "text/plain; charset=utf-8".toList, body := msg ++ ['\n'] }

/-- An incoming request: method, the parsed query `r.URL.Query()` as key/value pairs
in order, and the outcome of `json.NewDecoder(r.Body).Decode(&payload)`. -/
structure Request (V : Type) where
  Method : Str
  Query : List (Str × Str)
  Body : Except Str (RequestPayload V)

/-- The method `url.Values.Get`: the first value of the key, or the empty string. -/
def queryGet : List (Str × Str) → Str → Str
  | [], _ => []
  | (k, v) :: rest, key => if k = key then v else queryGet rest key

/-- One archive entry header as returned by `tarReader.Next()`. -/
structure TarHeader where
  Name : Str
  Typeflag : Char
deriving DecidableEq, Repr

/-- The constant `tar.TypeReg`. -/
def TypeReg : Char := '0'

/-- The constant `tar.TypeDir`. -/
def TypeDir : Char := '5'

/-- One `os.DirEntry` of a directory listing. -/
structure DirEntry where
  Name : Str
  IsDir : Bool
deriving DecidableEq, Repr

/-- An error of `os.ReadFile`, with the answer of `os.IsNotExist` on it. -/
structure ReadError where
  msg : Str
  notExist : Bool
deriving DecidableEq, Repr

/-- The struct `helm.TemplateConfig`, over a chart model type `C`. -/
structure TemplateConfig (V C : Type) where
  Chart : C
  ReleaseName : Str
  Namespace : Str
  Values : Option V

/-- The outcome of `http.Get` when it returns no error. -/
structure HttpResponse where
  StatusCode : Nat
  Body : Str
deriving DecidableEq, Repr

/-- The environment: the outcome of every call that leaves the program. Errors are
represented by their message (`err.Error()`). -/
structure Env (V C : Type) where
  /-- Value of the environment variable `TMPDIR`. -/
  TMPDIR : Str
  /-- Random part of the name `os.MkdirTemp` picks for a pattern. -/
  nextRandom : Str → Str
  /-- Error of the `Mkdir` inside `os.MkdirTemp`, by directory name. -/
  Mkdir : Str → Option Str
  /-- Error of `os.Create`, by file name. -/
  Create : Str → Option Str
  /-- Outcome of `http.Get`, by URL. -/
  Get : Str → Except Str HttpResponse
  /-- Error of `io.Copy` into the file of that name. -/
  Copy : Str → Option Str
  /-- Error of `os.Open`, by file name. -/
  Open : Str → Option Str
  /-- Error of `gzip.NewReader` on the file of that name. -/
  GzipNewReader : Str → Option Str
  /-- Headers yielded by successive `tarReader.Next()` calls on the file of that
  name, and the error that ends them (`none` is `io.EOF`). -/
  TarEntries : Str → List TarHeader × Option Str
  /-- Error of `os.MkdirAll`, by directory name. -/
  MkdirAll : Str → Option Str
  /-- Outcome of `os.ReadDir`. -/
  ReadDir : Str → Except Str (List DirEntry)
  /-- Outcome of `os.ReadFile`. -/
  ReadFile : Str → Except ReadError Str
  /-- Outcome of `helm.LoadChart(ctx, os.DirFS(root))`, by root. -/
  LoadChart : Str → Except Str C
  /-- Outcome of `helm.Template(ctx, config)`. -/
  Template : TemplateConfig V C → Except Str Str
  /-- Outcome of `json.Unmarshal([]byte(valuesParam), &payload.Values)`. -/
  UnmarshalValues : Str → Except Str (Option V)
  /-- JSON encoding of a string value by `encoding/json`, quotes included. -/
  jsonString : Str → Str

/-- A call that leaves the program, as recorded in the trace. -/
inductive Call where
  | MkdirTemp (pattern : Str)
  | Create (name : Str)
  | Get (url : Str)
  | Copy (name : Str)
  | Open (name : Str)
  | GzipNewReader (name : Str)
  | MkdirAll (name : Str)
  | ReadDir (name : Str)
  | ReadFile (name : Str)
  | LoadChart (root : Str)
  | Template (releaseName ns : Str)
  | RemoveAll (name : Str)
deriving DecidableEq, Repr

/-- The state threaded through a handler: the paths present in the filesystem (each
identified by its `Clean` form) and the calls made so far. -/
structure Sys where
  fs : List Str
  calls : List Call
deriving DecidableEq, Repr

/-- What a handler leaves behind: the response and the final state. -/
structure Outcome where
  resp : Response
  sys : Sys
deriving DecidableEq, Repr

/-! ## Operating-system primitives -/

/-- Record a call in the trace. -/
def Sys.call (s : Sys) (c : Call) : Sys := { s with calls := s.calls ++ [c] }

/-- Make a path present. -/
def Sys.add (s : Sys) (name : Str) : Sys := { s with fs := Clean name :: s.fs }

/-- Whether a path is present. -/
def Sys.present (s : Sys) (name : Str) : Bool := s.fs.contains (Clean name)

/-- Whether the clean path `q` is the clean path `root` or lies below it. -/
def isUnder (root q : Str) : Bool :=
  q == root || (if root == [Separator] then root else root ++ [Separator]).isPrefixOf q

/-- Whether the clean path `q` lies strictly inside the clean directory `root`. -/
def isInside (root q : Str) : Bool :=
  q != root && isUnder root q

/-- The proper ancestors of a clean path that `os.MkdirAll` creates with it. -/
def ancestors (name : Str) : List Str :=
  (List.range name.length).filterMap fun i =>
    if IsPathSeparator (name.getD i '.') then
      some (if i = 0 then [Separator] else name.take i)
    else none

/-- The function `os.TempDir` on Unix. -/
def TempDir {V C : Type} (env : Env V C) : Str :=
  if env.TMPDIR = [] then "/tmp".toList else env.TMPDIR

/-- The helper `joinPath` of package `os`. -/
def joinPath (dir name : Str) : Str :=
  if dir.length > 0 && IsPathSeparator (dir.getLastD '.') then dir ++ name
  else dir ++ [Separator] ++ name

/-- The name `os.MkdirTemp("", pattern)` tries for a pattern without `*`:
`joinPath(TempDir(), pattern) + nextRandom()`. -/
def tempName {V C : Type} (env : Env V C) (pattern : Str) : Str :=
  joinPath (TempDir env) pattern ++ env.nextRandom pattern

/-- The function `os.MkdirTemp("", pattern)`: make the directory `tempName`. -/
def MkdirTemp {V C : Type} (env : Env V C) (pattern : Str) (s : Sys) : Sys × Except Str Str :=
  let name := tempName env pattern
  match env.Mkdir name with
  | some err => (s.call (.MkdirTemp pattern), .error err)
  | none => ((s.call (.MkdirTemp pattern)).add name, .ok name)

/-- The function `os.Create`. -/
def osCreate {V C : Type} (env : Env V C) (name : Str) (s : Sys) : Sys × Option Str :=
  match env.Create name with
  | some err => (s.call (.Create name), some err)
  | none => ((s.call (.Create name)).add name, none)

/-- The function `os.MkdirAll`. -/
def osMkdirAll {V C : Type} (env : Env V C) (name : Str) (s : Sys) : Sys × Option Str :=
  match env.MkdirAll name with
  | some err => (s.call (.MkdirAll name), some err)
  | none =>
    let s1 := s.call (.MkdirAll name)
    ({ s1 with fs := Clean name :: ancestors (Clean name) ++ s1.fs }, none)

/-- The function `os.RemoveAll`: the path and everything below it are gone. -/
def osRemoveAll (name : Str) (s : Sys) : Sys :=
  { fs := s.fs.filter (fun q => !isUnder (Clean name) q),
    calls := s.calls ++ [.RemoveAll name] }

/-! ## The pipeline of `main.go` -/

/-- The function `downloadChart`: returns the path of the downloaded file, or an
error. -/
def downloadChart {V C : Type} (env : Env V C) (url : Str) (s : Sys) : Sys × Except Str Str :=
  match MkdirTemp env "helm-template-".toList s with
  | (s1, .error err) => (s1, .error ("failed to create temp directory: ".toList ++ err))
  | (s1, .ok tempDir) =>
    let tempFilePath := Join [tempDir, Base url]
    match osCreate env tempFilePath s1 with
    | (s2, some err) => (s2, .error ("failed to create temp file: ".toList ++ err))
    | (s2, none) =>
      match env.Get url with
      | .error err => (s2.call (.Get url), .error ("failed to download chart: ".toList ++ err))
      | .ok resp =>
        if resp.StatusCode != StatusOK then
          (s2.call (.Get url),
            .error ("failed to download chart, status code: ".toList ++
              Nat.toDigits 10 resp.StatusCode))
        else
          match env.Copy tempFilePath with
          | some err =>
            ((s2.call (.Get url)).call (.Copy tempFilePath),
              .error ("failed to copy content to file: ".toList ++ err))
          | none => ((s2.call (.Get url)).call (.Copy tempFilePath), .ok tempFilePath)

/-- The loop `for { header, err := tarReader.Next() ... }` of `extractTarball`, over
the headers the reader yields and the error that ends them (`none` is `io.EOF`). -/
def extractEntries {V C : Type} (env : Env V C) (tempExtractDir : Str) :
    List TarHeader → Option Str → Sys → Sys × Except Str Unit
  | [], none, s => (s, .ok ())
  | [], some err, s => (s, .error ("failed to read tar header: ".toList ++ err))
  | header :: headers, last, s =>
    let targetPath := Join [tempExtractDir, header.Name]
    if header.Typeflag = TypeDir then
      match osMkdirAll env targetPath s with
      | (s1, some err) => (s1, .error ("failed to create directory: ".toList ++ err))
      | (s1, none) => extractEntries env tempExtractDir headers last s1
    else if header.Typeflag = TypeReg then
      -- Ensure parent directory exists.
      match osMkdirAll env (Dir targetPath) s with
      | (s1, some err) => (s1, .error ("failed to create parent directory: ".toList ++ err))
      | (s1, none) =>
        match osCreate env targetPath s1 with
        | (s2, some err) => (s2, .error ("failed to create file: ".toList ++ err))
        | (s2, none) =>
          match env.Copy targetPath with
          | some err =>
            (s2.call (.Copy targetPath), .error ("failed to copy file content: ".toList ++ err))
          | none => extractEntries env tempExtractDir headers last (s2.call (.Copy targetPath))
    else
      extractEntries env tempExtractDir headers last s

/-- The function `extractTarball`: returns the extraction directory, or an error. -/
def extractTarball {V C : Type} (env : Env V C) (tarballPath : Str) (s : Sys) :
    Sys × Except Str Str :=
  match env.Open tarballPath with
  | some err => (s.call (.Open tarballPath), .error ("failed to open tarball: ".toList ++ err))
  | none =>
    match env.GzipNewReader tarballPath with
    | some err =>
      ((s.call (.Open tarballPath)).call (.GzipNewReader tarballPath),
        .error ("failed to create gzip reader: ".toList ++ err))
    | none =>
      match MkdirTemp env "helm-extract-".toList
          ((s.call (.Open tarballPath)).call (.GzipNewReader tarballPath)) with
      | (s1, .error err) =>
        (s1, .error ("failed to create extraction directory: ".toList ++ err))
      | (s1, .ok tempExtractDir) =>
        match extractEntries env tempExtractDir (env.TarEntries tarballPath).1
            (env.TarEntries tarballPath).2 s1 with
        | (s2, .error err) => (s2, .error err)
        | (s2, .ok ()) => (s2, .ok tempExtractDir)

/-- A value of a JSON object field written by `json.Marshal` for `ResponsePayload`. -/
inductive JsonValue where
  | string (s : Str)
  | bool (b : Bool)
deriving DecidableEq, Repr

/-- The fields `json.Marshal` writes for a `ResponsePayload`, in order, by the struct
tags `json:"templates"`, `json:"values,omitempty"` and `json:"valuesExist"`. -/
def jsonFields (r : ResponsePayload) : List (Str × JsonValue) :=
  [("templates".toList, .string r.Templates)] ++
  (if r.Values = [] then [] else [("values".toList, .string r.Values)]) ++
  [("valuesExist".toList, .bool r.ValuesExist)]

/-- The JSON text of one field: the quoted key, a colon, the value. -/
def encodeField {V C : Type} (env : Env V C) (f : Str × JsonValue) : Str :=
  ['"'] ++ f.1 ++ ['"', ':'] ++
    match f.2 with
    | .string s => env.jsonString s
    | .bool b => if b then "true".toList else "false".toList

/-- The JSON text of an object with the given fields. -/
def encodeObject {V C : Type} (env : Env V C) (fields : List (Str × JsonValue)) : Str :=
  ['\x7b'] ++ stringsJoin (fields.map (encodeField env)) [','] ++ ['\x7d']

/-- The function `json.Marshal` on a `ResponsePayload`. -/
def jsonMarshal {V C : Type} (env : Env V C) (r : ResponsePayload) : Except Str Str :=
  .ok (encodeObject env (jsonFields r))

/-- The loop `for _, entry := range entries` of `templateChartAndRender`, starting
from `var chartRootDir string`. -/
def findChartRoot (extractDir : Str) : List DirEntry → Str
  | [] => []
  | entry :: entries =>
    if entry.IsDir then Join [extractDir, entry.Name] else findChartRoot extractDir entries

/-- Lines 263-281 of `templateChartAndRender`: writing the successful response. -/
def writeResult {V C : Type} (env : Env V C) (result valuesContent : Str)
    (valuesExist renderJSON : Bool) : Response :=
  if renderJSON then
    match jsonMarshal env
      { Templates := result, Values := valuesContent, ValuesExist := valuesExist } with
    | .error _ => httpError "Error creating JSON response".toList StatusInternalServerError
    | .ok jsonResponse =>
      { status := StatusOK, contentType := "application/json".toList, body := jsonResponse }
  else
    { status := StatusOK, contentType := "text/plain".toList, body := result }

/-- The value `config := helm.TemplateConfig{...}` built in `templateChartAndRender`. -/
def templateConfig {V C : Type} (payload : RequestPayload V) (loadedChart : C) :
    TemplateConfig V C :=
  { Chart := loadedChart, ReleaseName := "my-release".toList, Namespace := "default".toList,
    Values := payload.Values }

/-- Lines 239-281 of `templateChartAndRender`: load the chart, render, respond. -/
def loadAndRender {V C : Type} (env : Env V C) (payload : RequestPayload V) (renderJSON : Bool)
    (chartRootDir valuesContent : Str) (valuesExist : Bool) (s : Sys) : Outcome :=
  match env.LoadChart chartRootDir with
  | .error err =>
    ⟨httpError ("Error loading chart: ".toList ++ err) StatusInternalServerError,
      s.call (.LoadChart chartRootDir)⟩
  | .ok loadedChart =>
    let config := templateConfig payload loadedChart
    let s1 := (s.call (.LoadChart chartRootDir)).call (.Template config.ReleaseName config.Namespace)
    match env.Template config with
    | .error err =>
      ⟨httpError ("Error templating chart: ".toList ++ err) StatusInternalServerError, s1⟩
    | .ok result => ⟨writeResult env result valuesContent valuesExist renderJSON, s1⟩

/-- Lines 224-281 of `templateChartAndRender`: read `values.yaml` at the chart root,
then load, render and respond. -/
def readValuesAndRender {V C : Type} (env : Env V C) (payload : RequestPayload V)
    (renderJSON : Bool) (chartRootDir : Str) (s : Sys) : Outcome :=
  let valuesFilePath := Join [chartRootDir, "values.yaml".toList]
  let s1 := s.call (.ReadFile valuesFilePath)
  match env.ReadFile valuesFilePath with
  | .error err =>
    if !err.notExist then
      ⟨httpError ("Error reading values.yaml: ".toList ++ err.msg) StatusInternalServerError, s1⟩
    else loadAndRender env payload renderJSON chartRootDir [] false s1
  | .ok valuesBytes => loadAndRender env payload renderJSON chartRootDir valuesBytes true s1

/-- Lines 204-281 of `templateChartAndRender`: everything after the second `defer`. -/
def locateAndRender {V C : Type} (env : Env V C) (payload : RequestPayload V) (renderJSON : Bool)
    (extractDir : Str) (s : Sys) : Outcome :=
  match env.ReadDir extractDir with
  | .error err =>
    ⟨httpError ("Error reading extracted directory: ".toList ++ err) StatusInternalServerError,
      s.call (.ReadDir extractDir)⟩
  | .ok entries =>
    let chartRootDir := findChartRoot extractDir entries
    if chartRootDir = [] then
      ⟨httpError "Could not find a valid chart directory in the tarball".toList
          StatusInternalServerError, s.call (.ReadDir extractDir)⟩
    else readValuesAndRender env payload renderJSON chartRootDir (s.call (.ReadDir extractDir))

/-- The function `templateChartAndRender`. A `defer os.RemoveAll(...)` runs when the
function returns, on the state its body left, the later one first. -/
def templateChartAndRender {V C : Type} (env : Env V C) (payload : RequestPayload V)
    (renderJSON : Bool) (s : Sys) : Outcome :=
  match downloadChart env payload.ChartURL s with
  | (s1, .error err) =>
    ⟨httpError ("Error downloading chart: ".toList ++ err) StatusInternalServerError, s1⟩
  | (s1, .ok tempFilePath) =>
    -- defer os.RemoveAll(filepath.Dir(tempFilePath))
    match extractTarball env tempFilePath s1 with
    | (s2, .error err) =>
      ⟨httpError ("Error extracting chart: ".toList ++ err) StatusInternalServerError,
        osRemoveAll (Dir tempFilePath) s2⟩
    | (s2, .ok extractDir) =>
      -- defer os.RemoveAll(extractDir)
      let out := locateAndRender env payload renderJSON extractDir s2
      ⟨out.resp, osRemoveAll (Dir tempFilePath) (osRemoveAll extractDir out.sys)⟩

/-- Lines 134-168 of `templateHandler`, the `switch r.Method`: either the error
response written before returning, or the payload parsed from the request. -/
def parsePayload {V C : Type} (env : Env V C) (r : Request V) :
    Except Response (RequestPayload V) :=
  if r.Method = "POST".toList then
    -- Decode the JSON request body.
    match r.Body with
    | .error _ => .error (httpError "Invalid JSON request body".toList StatusBadRequest)
    | .ok payload => .ok payload
  else if r.Method = "GET".toList then
    let chartURL := queryGet r.Query "chartUrl".toList
    if chartURL = [] then
      .error (httpError "Missing 'chartUrl' query parameter".toList StatusBadRequest)
    else
      let valuesParam := queryGet r.Query "values".toList
      if valuesParam ≠ [] then
        match env.UnmarshalValues valuesParam with
        | .error _ =>
          .error (httpError
            "Invalid 'values' query parameter. Must be a JSON string.".toList StatusBadRequest)
        | .ok values => .ok { ChartURL := chartURL, Values := values }
      else .ok { ChartURL := chartURL, Values := none }
  else
    .error (httpError "Only POST and GET methods are supported".toList StatusMethodNotAllowed)

/-- Lines 134-181 of `templateHandler`: either the error response written before
returning, or the arguments `payload`, `renderJSON` of the call of
`templateChartAndRender`. -/
def templateRequest {V C : Type} (env : Env V C) (r : Request V) :
    Except Response (RequestPayload V × Bool) :=
  match parsePayload env r with
  | .error resp => .error resp
  | .ok payload =>
    -- Validate the chart URL.
    if !HasSuffix payload.ChartURL ".tgz".toList then
      .error (httpError "Invalid or missing 'chartUrl'. Must be a .tgz URL.".toList
        StatusBadRequest)
    else
      let rawQuery := queryGet r.Query "raw".toList
      .ok (payload, if rawQuery = "true".toList then false else true)

/-- The function `templateHandler`, the handler of `/template`. -/
def templateHandler {V C : Type} (env : Env V C) (r : Request V) (s : Sys) : Outcome :=
  match templateRequest env r with
  | .error resp => ⟨resp, s⟩
  | .ok (payload, renderJSON) => templateChartAndRender env payload renderJSON s

/-- The function `rootHandler`, the handler of `/`; `none` stands for the request
being handed to `fileServer().ServeHTTP`, which is not modelled. -/
def rootHandler {V C : Type} (env : Env V C) (r : Request V) (s : Sys) : Option Outcome :=
  let chartURL := queryGet r.Query "c".toList
  if chartURL ≠ [] then
    -- If 'c' param exists, treat it as a raw template request.
    some (templateChartAndRender env { ChartURL := chartURL, Values := none } false s)
  else none

/-! ## Sample environments -/

/-- A remote host that serves a one-chart archive: every external call succeeds, the
archive holds the directory `chart/` with `Chart.yaml`, and there is no
`values.yaml`. -/
def sampleEnv : Env Unit Unit where
  TMPDIR := []
  nextRandom := fun _ => "1".toList
  Mkdir := fun _ => none
  Create := fun _ => none
  Get := fun _ => .ok ⟨200, "archive".toList⟩
  Copy := fun _ => none
  Open := fun _ => none
  GzipNewReader := fun _ => none
  TarEntries := fun _ =>
    ([⟨"chart/".toList, TypeDir⟩, ⟨"chart/Chart.yaml".toList, TypeReg⟩], none)
  MkdirAll := fun _ => none
  ReadDir := fun _ => .ok [⟨"chart".toList, true⟩]
  ReadFile := fun _ => .error ⟨"no such file or directory".toList, true⟩
  LoadChart := fun _ => .ok ()
  Template := fun _ => .ok "kind: Pod".toList
  UnmarshalValues := fun _ => .ok none
  jsonString := fun s => ['"'] ++ s ++ ['"']

/-- The sample environment with a remote host that answers `404 Not Found`. -/
def notFoundEnv : Env Unit Unit :=
  { sampleEnv with Get := fun _ => .ok ⟨404, "not found".toList⟩ }

/-- The sample environment with an archive whose tar stream breaks off after the
first entry. -/
def truncatedEnv : Env Unit Unit :=
  { sampleEnv with
    TarEntries := fun _ => ([⟨"chart/".toList, TypeDir⟩], some "unexpected EOF".toList) }

/-- The sample environment with an archive that holds, besides the chart, a regular
file entry named `../../evil`. -/
def traversalEnv : Env Unit Unit :=
  { sampleEnv with
    TarEntries := fun _ =>
      ([⟨"chart/".toList, TypeDir⟩, ⟨"../../evil".toList, TypeReg⟩], none) }

/-- The request payload used in the examples: `chartUrl = url`, no values. -/
def samplePayload (url : Str) : RequestPayload Unit := { ChartURL := url, Values := none }

/-- A `GET /?c=<c>` request. -/
def getRoot (c : Str) : Request Unit :=
  { Method := "GET".toList, Query := [("c".toList, c)], Body := .error "EOF".toList }

/-- The empty initial state. -/
def emptySys : Sys := { fs := [], calls := [] }

/-- A `GET /template?chartUrl=<url>&raw=<raw>` request. -/
def getTemplate (url raw : Str) : Request Unit :=
  { Method := "GET".toList, Query := [("chartUrl".toList, url), ("raw".toList, raw)],
    Body := .error "EOF".toList }

/-! ## Request validation -/

/-- When a key does not occur in the query, `Get` returns the empty string. -/
theorem queryGet_absent (q : List (Str × Str)) (key : Str) (h : ∀ kv ∈ q, kv.1 ≠ key) :
    queryGet q key = [] := by
  induction q with
  | nil => rfl
  | cons kv rest ih =>
    obtain ⟨k, v⟩ := kv
    have hk : k ≠ key := h (k, v) (List.mem_cons_self _ _)
    simp only [queryGet, hk, if_false]
    exact ih fun kv hkv => h kv (List.mem_cons_of_mem _ hkv)

/-- The message of `http.Error` is contained in the body it writes. -/
theorem httpError_body_contains (msg : Str) (code : Nat) :
    msg <:+: (httpError msg code).body :=
  ⟨[], ['\n'], by simp [httpError]⟩

/-- C5: a GET request to `templateHandler` whose query has no `chartUrl` parameter, or
whose first `chartUrl` value is empty, is answered with status 400 and a body that
contains `Missing 'chartUrl' query parameter`, whatever the other parameters; the
pipeline is not invoked and no external call is made. -/
theorem templateHandler_get_missing_chartUrl {V C : Type} (env : Env V C) (r : Request V)
    (s : Sys) (hm : r.Method = "GET".toList)
    (hq : (∀ kv ∈ r.Query, kv.1 ≠ "chartUrl".toList) ∨
      queryGet r.Query "chartUrl".toList = []) :
    (templateHandler env r s).resp.status = 400 ∧
    "Missing 'chartUrl' query parameter".toList <:+: (templateHandler env r s).resp.body ∧
    (∀ payload renderJSON, templateRequest env r ≠ .ok (payload, renderJSON)) ∧
    (templateHandler env r s).sys = s := by
  have hq2 : queryGet r.Query "chartUrl".toList = [] := by
    rcases hq with h | h
    · exact queryGet_absent _ _ h
    · exact h
  have hpost : ¬ ("GET".toList = "POST".toList) := by decide
  have hp : parsePayload env r =
      .error (httpError "Missing 'chartUrl' query parameter".toList StatusBadRequest) := by
    simp only [parsePayload, hpost, hm, hq2, if_true, if_false]
  have hr : templateRequest env r =
      .error (httpError "Missing 'chartUrl' query parameter".toList StatusBadRequest) := by
    simp only [templateRequest, hp]
  refine ⟨?_, ?_, ?_, ?_⟩
  · simp only [templateHandler, hr]; rfl
  · simp only [templateHandler, hr]; exact httpError_body_contains _ _
  · intro payload renderJSON h; rw [hr] at h; cases h
  · simp only [templateHandler, hr]

/-- Witness for C5: a GET request with only `raw` and `values` parameters. -/
theorem templateHandler_get_missing_chartUrl_witness :
    (templateHandler sampleEnv
      { Method := "GET".toList,
        Query := [("raw".toList, "true".toList), ("values".toList, "x".toList)],
        Body := .error [] } emptySys).resp.status = 400 :=
  (templateHandler_get_missing_chartUrl sampleEnv
    { Method := "GET".toList,
      Query := [("raw".toList, "true".toList), ("values".toList, "x".toList)],
      Body := .error [] } emptySys rfl (Or.inr (by decide))).1

/-- A successfully parsed request is a POST or a GET request. -/
theorem parsePayload_ok_method {V C : Type} (env : Env V C) (r : Request V)
    (payload : RequestPayload V) (hp : parsePayload env r = .ok payload) :
    r.Method = "POST".toList ∨ r.Method = "GET".toList := by
  by_cases h1 : r.Method = "POST".toList
  · exact Or.inl h1
  · by_cases h2 : r.Method = "GET".toList
    · exact Or.inr h2
    · rw [parsePayload, if_neg h1, if_neg h2] at hp
      cases hp

/-- C4: for a request to `templateHandler` whose parsing succeeds (a POST whose body
decodes, or a GET with a non-empty `chartUrl` and well-formed `values`), the
pipeline `templateChartAndRender` is invoked if and only if the chart URL ends with
`.tgz`; when it does not, the response has status 400, and nothing is downloaded,
extracted or rendered: the state is left as it was. -/
theorem templateHandler_pipeline_iff_tgz {V C : Type} (env : Env V C) (r : Request V)
    (s : Sys) (payload : RequestPayload V) (hp : parsePayload env r = .ok payload) :
    (r.Method = "POST".toList ∨ r.Method = "GET".toList) ∧
    ((∃ renderJSON, templateRequest env r = .ok (payload, renderJSON)) ↔
      HasSuffix payload.ChartURL ".tgz".toList = true) ∧
    (HasSuffix payload.ChartURL ".tgz".toList = true →
      ∃ renderJSON, templateHandler env r s =
        templateChartAndRender env payload renderJSON s) ∧
    (HasSuffix payload.ChartURL ".tgz".toList = false →
      (templateHandler env r s).resp.status = 400 ∧
      (∀ p renderJSON, templateRequest env r ≠ .ok (p, renderJSON)) ∧
      (templateHandler env r s).sys = s) := by
  refine ⟨parsePayload_ok_method env r payload hp, ?_, ?_, ?_⟩
  · constructor
    · rintro ⟨j, hj⟩
      by_contra hs
      have hs2 : HasSuffix payload.ChartURL ".tgz".toList = false := by simpa using hs
      simp only [templateRequest, hp, hs2, Bool.not_false, if_true] at hj
      cases hj
    · intro hs
      exact ⟨_, by simp only [templateRequest, hp, hs]; rfl⟩
  · intro hs
    exact ⟨_, by simp only [templateHandler, templateRequest, hp, hs]; rfl⟩
  · intro hs
    have hr : templateRequest env r =
        .error (httpError "Invalid or missing 'chartUrl'. Must be a .tgz URL.".toList
          StatusBadRequest) := by
      simp only [templateRequest, hp, hs]; rfl
    refine ⟨?_, ?_, ?_⟩
    · simp only [templateHandler, hr]; rfl
    · intro p j h; rw [hr] at h; cases h
    · simp only [templateHandler, hr]

/-- Witness for C4: a POST request whose body decodes to an empty `chartUrl`. -/
theorem templateHandler_pipeline_iff_tgz_witness :
    (templateHandler sampleEnv
      { Method := "POST".toList, Query := [], Body := .ok { ChartURL := [], Values := none } }
      emptySys).resp.status = 400 ∧
    (templateHandler sampleEnv
      { Method := "POST".toList, Query := [], Body := .ok { ChartURL := [], Values := none } }
      emptySys).sys = emptySys :=
  have h := (templateHandler_pipeline_iff_tgz sampleEnv
    { Method := "POST".toList, Query := [], Body := .ok { ChartURL := [], Values := none } }
    emptySys { ChartURL := [], Values := none } rfl).2.2.2 (by decide)
  ⟨h.1, h.2.2⟩

/-! ## Download -/

/-- C8: when the remote source answers with a status code `n` other than 200,
`downloadChart` returns the error `failed to download chart, status code: n` (`n` in
decimal) and no file path; `templateChartAndRender` answers with status 500 and a
body containing `Error downloading chart: failed to download chart, status code: n`,
and makes no call after `http.Get`: no extraction, locate or render stage runs. -/
theorem download_status_not_ok {V C : Type} (env : Env V C) (payload : RequestPayload V)
    (renderJSON : Bool) (s : Sys) (n : Nat) (body : Str)
    (hmk : env.Mkdir (tempName env "helm-template-".toList) = none)
    (hcr : env.Create
      (Join [tempName env "helm-template-".toList, Base payload.ChartURL]) = none)
    (hget : env.Get payload.ChartURL = .ok ⟨n, body⟩) (hn : n ≠ 200) :
    (downloadChart env payload.ChartURL s).2 =
      .error ("failed to download chart, status code: ".toList ++ Nat.toDigits 10 n) ∧
    (templateChartAndRender env payload renderJSON s).resp.status = 500 ∧
    ("Error downloading chart: failed to download chart, status code: ".toList ++
        Nat.toDigits 10 n) <:+: (templateChartAndRender env payload renderJSON s).resp.body ∧
    (templateChartAndRender env payload renderJSON s).sys.calls =
      s.calls ++ [.MkdirTemp "helm-template-".toList,
        .Create (Join [tempName env "helm-template-".toList, Base payload.ChartURL]),
        .Get payload.ChartURL] := by
  have hn2 : (n != StatusOK) = true := by simpa [StatusOK] using hn
  have hd : downloadChart env payload.ChartURL s =
      (Sys.call (Sys.add (Sys.call (Sys.add (Sys.call s (.MkdirTemp "helm-template-".toList))
          (tempName env "helm-template-".toList))
          (.Create (Join [tempName env "helm-template-".toList, Base payload.ChartURL])))
          (Join [tempName env "helm-template-".toList, Base payload.ChartURL]))
          (.Get payload.ChartURL),
        .error ("failed to download chart, status code: ".toList ++ Nat.toDigits 10 n)) := by
    simp only [downloadChart, MkdirTemp, hmk, osCreate, hcr, hget, hn2, if_true]
  have hmsg : "Error downloading chart: ".toList ++
      ("failed to download chart, status code: ".toList ++ Nat.toDigits 10 n) =
      "Error downloading chart: failed to download chart, status code: ".toList ++
        Nat.toDigits 10 n := rfl
  refine ⟨by rw [hd], ?_, ?_, ?_⟩
  · simp only [templateChartAndRender, hd]; rfl
  · simp only [templateChartAndRender, hd]
    rw [← hmsg]
    exact httpError_body_contains _ _
  · simp only [templateChartAndRender, hd, Sys.call, Sys.add, List.append_assoc,
      List.singleton_append, List.cons_append, List.nil_append]

/-- Witness for C8: the remote source answers 404. -/
theorem download_status_not_ok_witness :
    (templateChartAndRender { sampleEnv with Get := fun _ => .ok ⟨404, []⟩ }
      { ChartURL := "http://h/a.tgz".toList, Values := none } true emptySys).resp.status = 500 :=
  (download_status_not_ok { sampleEnv with Get := fun _ => .ok ⟨404, []⟩ }
    { ChartURL := "http://h/a.tgz".toList, Values := none } true emptySys 404 [] rfl rfl rfl
    (by decide)).2.1

/-! ## Locating the chart root -/

/-- The function `filepath.Clean` never returns the empty string. -/
theorem Clean_ne_nil (path : Str) : Clean path ≠ [] := by
  have aux : ∀ out : Str, (if out.length == 0 then ['.'] else out) ≠ [] := by
    intro out
    cases out <;> simp
  unfold Clean
  split
  · simp
  · exact aux _

/-- Joining onto a non-empty first element never gives the empty string. -/
theorem Join_ne_nil (a b : Str) (ha : a ≠ []) : Join [a, b] ≠ [] := by
  have h : (a != []) = true := by simpa using ha
  simp only [Join, h, if_true]
  exact Clean_ne_nil _

/-- The name chosen by `os.MkdirTemp` is not empty. -/
theorem tempName_ne_nil {V C : Type} (env : Env V C) (pattern : Str) :
    tempName env pattern ≠ [] := by
  have ht : TempDir env ≠ [] := by
    unfold TempDir
    split
    · decide
    · assumption
  unfold tempName joinPath
  split <;> simp [ht]

/-- A successful `extractTarball` returns the directory made by
`os.MkdirTemp("", "helm-extract-")`. -/
theorem extractTarball_ok {V C : Type} (env : Env V C) (tarballPath : Str) (s s2 : Sys)
    (extractDir : Str) (hx : extractTarball env tarballPath s = (s2, .ok extractDir)) :
    extractDir = tempName env "helm-extract-".toList := by
  unfold extractTarball at hx
  split at hx
  · cases hx
  · split at hx
    · cases hx
    · split at hx
      · cases hx
      · rename_i s1 dir hmk
        split at hx
        · cases hx
        · simp only [Prod.mk.injEq, Except.ok.injEq] at hx
          rw [← hx.2]
          unfold MkdirTemp at hmk
          dsimp only at hmk
          split at hmk
          · cases hmk
          · simp only [Prod.mk.injEq, Except.ok.injEq] at hmk
            exact hmk.2.symm

/-- The loop over the listing returns the empty string when no entry is a directory. -/
theorem findChartRoot_no_dir (extractDir : Str) (entries : List DirEntry)
    (h : ∀ e ∈ entries, e.IsDir = false) : findChartRoot extractDir entries = [] := by
  induction entries with
  | nil => rfl
  | cons e rest ih =>
    have he : e.IsDir = false := h e (List.mem_cons_self _ _)
    simp only [findChartRoot, he, Bool.false_eq_true, if_false]
    exact ih fun e2 h2 => h e2 (List.mem_cons_of_mem _ h2)

/-- The loop over the listing returns the join of the extraction root with the name
of the first entry that is a directory. -/
theorem findChartRoot_first_dir (extractDir : Str) (entries : List DirEntry) (e : DirEntry)
    (h : entries.find? (fun x => x.IsDir) = some e) :
    findChartRoot extractDir entries = Join [extractDir, e.Name] := by
  induction entries with
  | nil => cases h
  | cons x rest ih =>
    by_cases hx : x.IsDir = true
    · simp only [List.find?, hx] at h
      cases h
      simp only [findChartRoot, hx, if_true]
    · have hx2 : x.IsDir = false := by simpa using hx
      simp only [List.find?, hx2] at h
      simp only [findChartRoot, hx2, Bool.false_eq_true, if_false]
      exact ih h

/-- The engine is loaded by `readValuesAndRender` on the chart root it was given, and
on nothing else. -/
theorem readValuesAndRender_LoadChart {V C : Type} (env : Env V C)
    (payload : RequestPayload V) (renderJSON : Bool) (chartRootDir : Str) (s : Sys) (root : Str)
    (h : Call.LoadChart root ∈
      (readValuesAndRender env payload renderJSON chartRootDir s).sys.calls) :
    Call.LoadChart root ∈ s.calls ∨ root = chartRootDir := by
  have key : ∀ (content : Str) (b : Bool) (s1 : Sys),
      Call.LoadChart root ∈
        (loadAndRender env payload renderJSON chartRootDir content b s1).sys.calls →
      Call.LoadChart root ∈ s1.calls ∨ root = chartRootDir := by
    intro content b s1 h1
    unfold loadAndRender at h1
    split at h1
    · simpa [Sys.call] using h1
    · dsimp only at h1
      split at h1 <;> simpa [Sys.call] using h1
  unfold readValuesAndRender at h
  dsimp only at h
  split at h
  · split at h
    · exact Or.inl (by simpa [Sys.call] using h)
    · rcases key _ _ _ h with h2 | h2
      · left; simpa [Sys.call] using h2
      · exact Or.inr h2
  · rcases key _ _ _ h with h2 | h2
    · left; simpa [Sys.call] using h2
    · exact Or.inr h2

/-- C6: in `templateChartAndRender`, after a successful download and extraction, for
every listing `entries` of the extraction root: if no entry is a directory, the
response is status 500 with `Could not find a valid chart directory in the tarball`
and the only calls made afterwards are the listing and the two removals (the engine
is never called); otherwise the chart root is the extraction root joined with the
name of the first entry that is a directory, it is not the empty string, and the
rest of the request runs on that chart root. In either case no call of the engine
on an empty chart root is added to the trace. -/
theorem chart_root_is_first_directory {V C : Type} (env : Env V C)
    (payload : RequestPayload V) (renderJSON : Bool) (s s1 s2 : Sys)
    (tempFilePath extractDir : Str) (entries : List DirEntry)
    (hd : downloadChart env payload.ChartURL s = (s1, .ok tempFilePath))
    (hx : extractTarball env tempFilePath s1 = (s2, .ok extractDir))
    (hr : env.ReadDir extractDir = .ok entries) :
    ((∀ e ∈ entries, e.IsDir = false) →
      (templateChartAndRender env payload renderJSON s).resp =
        httpError "Could not find a valid chart directory in the tarball".toList 500 ∧
      (templateChartAndRender env payload renderJSON s).sys.calls =
        s2.calls ++ [.ReadDir extractDir, .RemoveAll extractDir,
          .RemoveAll (Dir tempFilePath)]) ∧
    (∀ e, entries.find? (fun x => x.IsDir) = some e →
      findChartRoot extractDir entries = Join [extractDir, e.Name] ∧
      Join [extractDir, e.Name] ≠ [] ∧
      templateChartAndRender env payload renderJSON s =
        ⟨(readValuesAndRender env payload renderJSON (Join [extractDir, e.Name])
            (s2.call (.ReadDir extractDir))).resp,
          osRemoveAll (Dir tempFilePath) (osRemoveAll extractDir
            (readValuesAndRender env payload renderJSON (Join [extractDir, e.Name])
              (s2.call (.ReadDir extractDir))).sys)⟩) ∧
    (∀ root, Call.LoadChart root ∈
        (templateChartAndRender env payload renderJSON s).sys.calls →
      Call.LoadChart root ∈ s2.calls ∨ root ≠ []) := by
  have hne : extractDir ≠ [] := by
    rw [extractTarball_ok env tempFilePath s1 s2 extractDir hx]
    exact tempName_ne_nil env _
  refine ⟨?_, ?_, ?_⟩
  rotate_left 2
  · intro root hmem
    by_cases hroot : findChartRoot extractDir entries = []
    · simp only [templateChartAndRender, hd, hx, locateAndRender, hr, hroot, if_true,
        osRemoveAll, Sys.call, List.append_assoc, List.mem_append, List.mem_cons,
        List.mem_singleton, List.not_mem_nil, or_false, reduceCtorEq] at hmem
      exact Or.inl hmem
    · simp only [templateChartAndRender, hd, hx, locateAndRender, hr, hroot, if_false,
        osRemoveAll, List.append_assoc, List.mem_append, List.mem_cons,
        List.mem_singleton, List.not_mem_nil, or_false, reduceCtorEq] at hmem
      rcases readValuesAndRender_LoadChart _ _ _ _ _ _ hmem with h2 | h2
      · left; simpa [Sys.call] using h2
      · right; rw [h2]; exact hroot
  · intro hno
    have hroot := findChartRoot_no_dir extractDir entries hno
    simp only [templateChartAndRender, hd, hx, locateAndRender, hr, hroot, if_true,
      osRemoveAll, Sys.call, List.append_assoc, List.singleton_append, List.cons_append,
      List.nil_append]
    exact ⟨rfl, trivial⟩
  · intro e he
    have hroot := findChartRoot_first_dir extractDir entries e he
    have hjn := Join_ne_nil extractDir e.Name hne
    refine ⟨hroot, hjn, ?_⟩
    simp only [templateChartAndRender, hd, hx, locateAndRender, hr, hroot, hjn, if_false]

/-- Witness for C6: the sample archive, whose listing is the one directory `chart`. -/
theorem chart_root_is_first_directory_witness :
    findChartRoot "/tmp/helm-extract-1".toList [⟨"chart".toList, true⟩] =
      Join ["/tmp/helm-extract-1".toList, "chart".toList] :=
  ((chart_root_is_first_directory sampleEnv { ChartURL := "http://h/a.tgz".toList, Values := none }
    true emptySys _ _ _ "/tmp/helm-extract-1".toList [⟨"chart".toList, true⟩]
    rfl rfl rfl).2.1 ⟨"chart".toList, true⟩ rfl).1

/-! ## Reading the defaults document and shaping the response -/

/-- C7: for every located chart root, with `path` the file `values.yaml` at that root:
when `os.ReadFile path` succeeds, the request proceeds to the engine and a rendered
result is reported with `valuesExist = true` and the file content as values; when
the file does not exist, the request proceeds all the same and is reported with
`valuesExist = false` and empty values; any other read failure is answered with
status 500 and a body containing `Error reading values.yaml: ` and the error, and
the engine is not called. -/
theorem values_exist_reflects_read {V C : Type} (env : Env V C) (payload : RequestPayload V)
    (renderJSON : Bool) (chartRootDir : Str) (s : Sys) :
    (∀ content chart result, env.ReadFile (Join [chartRootDir, "values.yaml".toList]) =
        .ok content →
      env.LoadChart chartRootDir = .ok chart →
      env.Template (templateConfig payload chart) = .ok result →
      (readValuesAndRender env payload renderJSON chartRootDir s).resp =
        writeResult env result content true renderJSON ∧
      (readValuesAndRender env payload true chartRootDir s).resp.body =
        encodeObject env (jsonFields
          { Templates := result, Values := content, ValuesExist := true })) ∧
    (∀ err chart result, env.ReadFile (Join [chartRootDir, "values.yaml".toList]) =
        .error err → err.notExist = true →
      env.LoadChart chartRootDir = .ok chart →
      env.Template (templateConfig payload chart) = .ok result →
      (readValuesAndRender env payload renderJSON chartRootDir s).resp =
        writeResult env result [] false renderJSON ∧
      (readValuesAndRender env payload true chartRootDir s).resp.body =
        encodeObject env (jsonFields
          { Templates := result, Values := [], ValuesExist := false })) ∧
    (∀ err, env.ReadFile (Join [chartRootDir, "values.yaml".toList]) = .error err →
      err.notExist = true →
      Call.LoadChart chartRootDir ∈
        (readValuesAndRender env payload renderJSON chartRootDir s).sys.calls) ∧
    (∀ err, env.ReadFile (Join [chartRootDir, "values.yaml".toList]) = .error err →
      err.notExist = false →
      (readValuesAndRender env payload renderJSON chartRootDir s).resp.status = 500 ∧
      ("Error reading values.yaml: ".toList ++ err.msg) <:+:
        (readValuesAndRender env payload renderJSON chartRootDir s).resp.body ∧
      (readValuesAndRender env payload renderJSON chartRootDir s).sys.calls =
        s.calls ++ [.ReadFile (Join [chartRootDir, "values.yaml".toList])]) := by
  refine ⟨?_, ?_, ?_, ?_⟩
  · intro content chart result hread hload htpl
    constructor
    · simp only [readValuesAndRender, hread, loadAndRender, hload, htpl]
    · simp only [readValuesAndRender, hread, loadAndRender, hload, htpl, writeResult,
        jsonMarshal, if_true]
  · intro err chart result hread hne hload htpl
    constructor
    · simp only [readValuesAndRender, hread, hne, loadAndRender, hload, htpl, Bool.not_true,
        Bool.false_eq_true, if_false]
    · simp only [readValuesAndRender, hread, hne, loadAndRender, hload, htpl, writeResult,
        jsonMarshal, Bool.not_true, Bool.false_eq_true, if_true, if_false]
  · intro err hread hne
    simp only [readValuesAndRender, hread, hne, loadAndRender, Bool.not_true,
      Bool.false_eq_true, if_false]
    cases hload : env.LoadChart chartRootDir with
    | error e => simp [Sys.call]
    | ok chart =>
      simp only []
      split <;> simp [Sys.call]
  · intro err hread hne
    simp only [readValuesAndRender, hread, hne, Bool.not_false, if_true]
    exact ⟨rfl, httpError_body_contains _ _, rfl⟩

/-- Witness for C7: the sample chart has no `values.yaml`. -/
theorem values_exist_reflects_read_witness :
    (readValuesAndRender sampleEnv { ChartURL := "http://h/a.tgz".toList, Values := none } true
      "/tmp/helm-extract-1/chart".toList emptySys).resp.body =
    encodeObject sampleEnv (jsonFields
      { Templates := "kind: Pod".toList, Values := [], ValuesExist := false }) :=
  ((values_exist_reflects_read sampleEnv { ChartURL := "http://h/a.tgz".toList, Values := none }
    true "/tmp/helm-extract-1/chart".toList emptySys).2.1
    ⟨"no such file or directory".toList, true⟩ () "kind: Pod".toList rfl rfl rfl rfl).2

/-- An error response of `templateRequest` has status 400 or 405. -/
theorem templateRequest_error_status {V C : Type} (env : Env V C) (r : Request V)
    (resp : Response) (h : templateRequest env r = .error resp) :
    resp.status = 400 ∨ resp.status = 405 := by
  unfold templateRequest at h
  split at h
  · rename_i resp2 hp
    cases h
    unfold parsePayload at hp
    split at hp
    · split at hp
      · cases hp; exact Or.inl rfl
      · cases hp
    · split at hp
      · dsimp only at hp
        split at hp
        · cases hp; exact Or.inl rfl
        · split at hp
          · split at hp
            · cases hp; exact Or.inl rfl
            · cases hp
          · cases hp
      · cases hp; exact Or.inr rfl
  · split at h
    · cases h; exact Or.inl rfl
    · cases h

/-- The output mode chosen by `templateRequest`: raw exactly when the query parameter
`raw` equals `true`. -/
theorem templateRequest_ok_renderJSON {V C : Type} (env : Env V C) (r : Request V)
    (payload : RequestPayload V) (renderJSON : Bool)
    (h : templateRequest env r = .ok (payload, renderJSON)) :
    renderJSON = (if queryGet r.Query "raw".toList = "true".toList then false else true) := by
  unfold templateRequest at h
  split at h
  · cases h
  · split at h
    · cases h
    · simp only [Except.ok.injEq, Prod.mk.injEq] at h
      exact h.2.symm

/-- A response of `loadAndRender` with status 200 is the rendered result as written
by `writeResult`. -/
theorem loadAndRender_status_ok {V C : Type} (env : Env V C) (payload : RequestPayload V)
    (renderJSON : Bool) (root content : Str) (b : Bool) (s : Sys)
    (h : (loadAndRender env payload renderJSON root content b s).resp.status = 200) :
    ∃ cfg result, env.Template cfg = .ok result ∧
      (loadAndRender env payload renderJSON root content b s).resp =
        writeResult env result content b renderJSON := by
  unfold loadAndRender at h ⊢
  split at h
  · cases h
  · dsimp only at h ⊢
    split at h
    · cases h
    · rename_i result htpl
      exact ⟨_, result, htpl, by simp only [htpl]⟩

/-- A response of `templateChartAndRender` with status 200 is the rendered result as
written by `writeResult`, with the values read from `values.yaml` when that file
could be read and empty values otherwise. -/
theorem templateChartAndRender_status_ok {V C : Type} (env : Env V C)
    (payload : RequestPayload V) (renderJSON : Bool) (s : Sys)
    (h : (templateChartAndRender env payload renderJSON s).resp.status = 200) :
    ∃ result content b, (∃ cfg, env.Template cfg = .ok result) ∧
      ((b = true ∧ ∃ path, env.ReadFile path = .ok content) ∨ (b = false ∧ content = [])) ∧
      (templateChartAndRender env payload renderJSON s).resp =
        writeResult env result content b renderJSON := by
  unfold templateChartAndRender at h
  split at h
  · cases h
  · rename_i s1 tempFilePath hd
    split at h
    · cases h
    · rename_i s2 extractDir hx
      dsimp only at h
      unfold locateAndRender at h
      split at h
      · cases h
      · rename_i entries hr
        dsimp only at h
        split at h
        · cases h
        · rename_i hroot
          unfold readValuesAndRender at h
          dsimp only at h
          split at h
          · rename_i err hread
            split at h
            · cases h
            · rename_i hne
              obtain ⟨cfg, result, htpl, hresp⟩ := loadAndRender_status_ok _ _ _ _ _ _ _ h
              refine ⟨result, [], false, ⟨cfg, htpl⟩, Or.inr ⟨rfl, rfl⟩, ?_⟩
              simp only [templateChartAndRender, hd, hx, locateAndRender, hr, hroot,
                readValuesAndRender, hread, hne, if_false]
              exact hresp
          · rename_i content hread
            obtain ⟨cfg, result, htpl, hresp⟩ := loadAndRender_status_ok _ _ _ _ _ _ _ h
            refine ⟨result, content, true, ⟨cfg, htpl⟩, Or.inl ⟨rfl, _, hread⟩, ?_⟩
            simp only [templateChartAndRender, hd, hx, locateAndRender, hr, hroot,
              readValuesAndRender, hread, if_false]
            exact hresp

/-- C9 (amended): every `/template` request answered with status 200 carries a result
rendered by the engine. When the query parameter `raw` equals `true`, the response
has content type `text/plain` and its body is exactly the rendered text; otherwise
it has content type `application/json` and its body is the JSON object with the
fields `templates` (the rendered text), then `values` (the defaults document) only
when that document is not empty, then `valuesExist`. -/
theorem success_response_shape {V C : Type} (env : Env V C) (r : Request V) (s : Sys)
    (h : (templateHandler env r s).resp.status = 200) :
    ∃ result content b, (∃ cfg, env.Template cfg = .ok result) ∧
      ((b = true ∧ ∃ path, env.ReadFile path = .ok content) ∨ (b = false ∧ content = [])) ∧
      (queryGet r.Query "raw".toList = "true".toList →
        (templateHandler env r s).resp = ⟨200, "text/plain".toList, result⟩) ∧
      (queryGet r.Query "raw".toList ≠ "true".toList →
        (templateHandler env r s).resp = ⟨200, "application/json".toList,
          encodeObject env
            ([("templates".toList, JsonValue.string result)] ++
              (if content = [] then [] else [("values".toList, JsonValue.string content)]) ++
              [("valuesExist".toList, JsonValue.bool b)])⟩) := by
  unfold templateHandler at h
  split at h
  · rename_i resp hreq
    rcases templateRequest_error_status env r resp hreq with h4 | h4
    · dsimp only at h; rw [h4] at h; cases h
    · dsimp only at h; rw [h4] at h; cases h
  · rename_i payload renderJSON hreq
    have hj := templateRequest_ok_renderJSON env r payload renderJSON hreq
    obtain ⟨result, content, b, htpl, hval, hresp⟩ :=
      templateChartAndRender_status_ok env payload renderJSON s h
    refine ⟨result, content, b, htpl, hval, ?_, ?_⟩
    · intro hraw
      rw [if_pos hraw] at hj
      subst hj
      simp only [templateHandler, hreq]
      rw [hresp]
      simp only [writeResult, Bool.false_eq_true, if_false]
      rfl
    · intro hraw
      rw [if_neg hraw] at hj
      subst hj
      simp only [templateHandler, hreq]
      rw [hresp]
      simp only [writeResult, jsonMarshal, if_true]
      rfl

/-- Witness for C9 (amended): the sample chart requested with `raw=true` is answered
with status 200, so the theorem applies, and the body is the rendered text. -/
theorem success_response_shape_witness :
    ∃ result, (∃ cfg, sampleEnv.Template cfg = .ok result) ∧
      (templateHandler sampleEnv (getTemplate "http://h/a.tgz".toList "true".toList)
        emptySys).resp = ⟨200, "text/plain".toList, result⟩ :=
  match success_response_shape sampleEnv (getTemplate "http://h/a.tgz".toList "true".toList)
    emptySys (by decide) with
  | ⟨result, _, _, htpl, _, hraw, _⟩ => ⟨result, htpl, hraw (by decide)⟩

/-- C9 as stated fails: the sample chart has no `values.yaml`; requested without
`raw=true` it is answered with status 200 and content type `application/json`, but
the body is the object with the two fields `templates` and `valuesExist` only, so it
is not an object with the three fields `templates`, `values` and `valuesExist`. -/
theorem success_json_without_values_field :
    (templateHandler sampleEnv (getTemplate "http://h/a.tgz".toList "false".toList)
      emptySys).resp =
      ⟨200, "application/json".toList,
        "\x7b\"templates\":\"kind: Pod\",\"valuesExist\":false\x7d".toList⟩ ∧
    ¬ ∃ t v b,
      (templateHandler sampleEnv (getTemplate "http://h/a.tgz".toList "false".toList)
        emptySys).resp.body =
      encodeObject sampleEnv [("templates".toList, JsonValue.string t),
        ("values".toList, JsonValue.string v), ("valuesExist".toList, JsonValue.bool b)] := by
  have hresp : (templateHandler sampleEnv (getTemplate "http://h/a.tgz".toList "false".toList)
      emptySys).resp =
      ⟨200, "application/json".toList,
        "\x7b\"templates\":\"kind: Pod\",\"valuesExist\":false\x7d".toList⟩ := by decide
  refine ⟨hresp, ?_⟩
  rintro ⟨t, v, b, h⟩
  rw [hresp] at h
  have hl := congrArg List.length h
  cases b <;>
    simp [encodeObject, encodeField, stringsJoin, sampleEnv] at hl <;> omega

/-! ## The shorthand entry point -/

/-- For a value `c` that ends with `.tgz`, `rootHandler` on a request with query
parameter `c` does what `templateHandler` does on
`GET /template?chartUrl=<c>&raw=true`. -/
theorem rootHandler_eq_templateHandler_of_tgz {V C : Type} (env : Env V C) (r : Request V)
    (body : Except Str (RequestPayload V)) (s : Sys)
    (hs : HasSuffix (queryGet r.Query "c".toList) ".tgz".toList = true) :
    rootHandler env r s = some (templateHandler env
      { Method := "GET".toList,
        Query := [("chartUrl".toList, queryGet r.Query "c".toList),
          ("raw".toList, "true".toList)],
        Body := body } s) := by
  have hc : queryGet r.Query "c".toList ≠ [] := by
    intro h0
    rw [h0] at hs
    revert hs
    decide
  have h1 : ¬ ("GET".toList = "POST".toList) := by decide
  have hq1 : queryGet [("chartUrl".toList, queryGet r.Query "c".toList),
      ("raw".toList, "true".toList)] "chartUrl".toList = queryGet r.Query "c".toList := by
    simp only [queryGet, if_true]
  have hq2 : queryGet [("chartUrl".toList, queryGet r.Query "c".toList),
      ("raw".toList, "true".toList)] "values".toList = [] := by
    have : ¬ ("chartUrl".toList = "values".toList) := by decide
    have : ¬ ("raw".toList = "values".toList) := by decide
    simp only [queryGet, *, if_false]
  have hq3 : queryGet [("chartUrl".toList, queryGet r.Query "c".toList),
      ("raw".toList, "true".toList)] "raw".toList = "true".toList := by
    have : ¬ ("chartUrl".toList = "raw".toList) := by decide
    simp only [queryGet, *, if_true, if_false]
  simp only [rootHandler, hc, ne_eq, not_false_eq_true, if_true, templateHandler,
    templateRequest, parsePayload, h1, if_false, hq1, hq2, hq3, not_true_eq_false, hs,
    Bool.not_true, Bool.false_eq_true]

/-- C3, evaluated where it fails: for `c = http://h/chart`, which does not end with
`.tgz`, `GET /?c=<c>` handled by `rootHandler` runs the pipeline (it downloads from
`c` and answers 200 with the rendered text), while
`GET /template?chartUrl=<c>&raw=true` handled by `templateHandler` is rejected with
status 400 without any external call. -/
theorem rootHandler_skips_suffix_validation :
    (rootHandler sampleEnv (getRoot "http://h/chart".toList) emptySys).map
        (fun out => (out.resp.status, out.resp.body,
          decide (Call.Get "http://h/chart".toList ∈ out.sys.calls))) =
      some (200, "kind: Pod".toList, true) ∧
    templateHandler sampleEnv (getTemplate "http://h/chart".toList "true".toList) emptySys =
      ⟨httpError "Invalid or missing 'chartUrl'. Must be a .tgz URL.".toList 400, emptySys⟩ := by
  decide

/-! ## Scratch directories -/

/-- C2, evaluated where it fails. When the remote host answers 404, the request ends
with status 500 and the directory `/tmp/helm-template-1` made by `downloadChart`
is still present. When the tar stream breaks off, the request ends with status 500,
the download directory is gone, and the directory `/tmp/helm-extract-1` made by
`extractTarball` is still present. On the successful run both are gone. -/
theorem scratch_directory_left_after_failure :
    ((templateChartAndRender notFoundEnv (samplePayload "http://h/a.tgz".toList) true
        emptySys).resp.status = 500 ∧
      (templateChartAndRender notFoundEnv (samplePayload "http://h/a.tgz".toList) true
        emptySys).sys.present "/tmp/helm-template-1".toList = true) ∧
    ((templateChartAndRender truncatedEnv (samplePayload "http://h/a.tgz".toList) true
        emptySys).resp.status = 500 ∧
      (templateChartAndRender truncatedEnv (samplePayload "http://h/a.tgz".toList) true
        emptySys).sys.present "/tmp/helm-template-1".toList = false ∧
      (templateChartAndRender truncatedEnv (samplePayload "http://h/a.tgz".toList) true
        emptySys).sys.present "/tmp/helm-extract-1".toList = true) ∧
    ((templateChartAndRender sampleEnv (samplePayload "http://h/a.tgz".toList) true
        emptySys).resp.status = 200 ∧
      (templateChartAndRender sampleEnv (samplePayload "http://h/a.tgz".toList) true
        emptySys).sys.present "/tmp/helm-template-1".toList = false ∧
      (templateChartAndRender sampleEnv (samplePayload "http://h/a.tgz".toList) true
        emptySys).sys.present "/tmp/helm-extract-1".toList = false) := by
  decide

/-! ## Extraction targets -/

/-- C1, evaluated where it fails: for the extraction root `/tmp/helm-extract-1` and
the entry name `../../evil`, the target path is `/evil`, which is not inside the
extraction root; `extractTarball` creates that file, and it is still present when
`templateChartAndRender` has returned and removed both scratch directories. (The
absolute name `/etc/passwd` does land inside the root.) -/
theorem extraction_escapes_root :
    Join ["/tmp/helm-extract-1".toList, "../../evil".toList] = "/evil".toList ∧
    isInside "/tmp/helm-extract-1".toList "/evil".toList = false ∧
    isInside "/tmp/helm-extract-1".toList
      (Join ["/tmp/helm-extract-1".toList, "/etc/passwd".toList]) = true ∧
    (extractTarball traversalEnv "/tmp/helm-template-1/a.tgz".toList emptySys).2.toOption =
      some "/tmp/helm-extract-1".toList ∧
    (extractTarball traversalEnv "/tmp/helm-template-1/a.tgz".toList emptySys).1.present
      "/evil".toList = true ∧
    (templateChartAndRender traversalEnv (samplePayload "http://h/a.tgz".toList) true
      emptySys).resp.status = 200 ∧
    (templateChartAndRender traversalEnv (samplePayload "http://h/a.tgz".toList) true
      emptySys).sys.present "/tmp/helm-extract-1".toList = false ∧
    (templateChartAndRender traversalEnv (samplePayload "http://h/a.tgz".toList) true
      emptySys).sys.present "/evil".toList = true := by
  decide

/-! ## The download path -/

/-- Characters that are not separators, as used by the element-copy loop. -/
theorem takeWhile_notSep_append (u t : Str) :
    (u ++ Separator :: t).takeWhile (fun x => !IsPathSeparator x) =
      u.takeWhile (fun x => !IsPathSeparator x) := by
  induction u with
  | nil => simp [IsPathSeparator]
  | cons c u ih =>
    by_cases hc : IsPathSeparator c = true
    · simp [List.takeWhile, hc]
    · have hc2 : IsPathSeparator c = false := by simpa using hc
      simp only [List.cons_append, List.takeWhile, hc2, Bool.not_false]
      exact congrArg (List.cons c) ih

/-- The rest left by the element-copy loop, when a separator follows. -/
theorem dropWhile_notSep_append (u t : Str) :
    (u ++ Separator :: t).dropWhile (fun x => !IsPathSeparator x) =
      u.dropWhile (fun x => !IsPathSeparator x) ++ Separator :: t := by
  induction u with
  | nil => simp [IsPathSeparator]
  | cons c u ih =>
    by_cases hc : IsPathSeparator c = true
    · simp [List.dropWhile, hc]
    · have hc2 : IsPathSeparator c = false := by simpa using hc
      simp only [List.cons_append, List.dropWhile, hc2, Bool.not_false]
      exact ih

/-- The element-copy loop leaves a rest that is not longer than its input. -/
theorem length_dropWhile_le (p : Char → Bool) (u : Str) : (u.dropWhile p).length ≤ u.length := by
  induction u with
  | nil => simp
  | cons c u ih =>
    simp only [List.dropWhile]
    split
    · exact Nat.le_succ_of_le ih
    · exact Nat.le_refl _

/-- The fuel of `cleanLoop` is never exhausted: any two fuels that are at least the
length of the unread rest give the same result. -/
theorem cleanLoop_fuel (rooted : Bool) :
    ∀ (f1 f2 : Nat) (rest out : Str) (dotdot : Nat), rest.length ≤ f1 → rest.length ≤ f2 →
      cleanLoop rooted f1 rest out dotdot = cleanLoop rooted f2 rest out dotdot := by
  intro f1
  induction f1 with
  | zero =>
    intro f2 rest out dotdot h1 _
    have hr : rest = [] := List.length_eq_zero.mp (Nat.le_zero.mp h1)
    subst hr
    cases f2 <;> rfl
  | succ f1 ih =>
    intro f2 rest out dotdot h1 h2
    cases rest with
    | nil => cases f2 <;> rfl
    | cons c rest =>
      cases f2 with
      | zero => simp at h2
      | succ f2 =>
        have l1 : rest.length ≤ f1 := Nat.le_of_succ_le_succ h1
        have l2 : rest.length ≤ f2 := Nat.le_of_succ_le_succ h2
        have t1 : rest.tail.length ≤ f1 := by
          rw [List.length_tail]; omega
        have t2 : rest.tail.length ≤ f2 := by
          rw [List.length_tail]; omega
        have hd : IsPathSeparator c = false →
            ((c :: rest).dropWhile (fun x => !IsPathSeparator x)).length ≤ rest.length := by
          intro hc
          simp only [List.dropWhile, hc, Bool.not_false]
          exact length_dropWhile_le _ _
        simp only [cleanLoop]
        split_ifs with c1 c2 c3 c4 c5 c6 c7
        all_goals first
          | exact ih _ _ _ _ l1 l2
          | exact ih _ _ _ _ t1 t2
          | exact ih _ _ _ _ (Nat.le_trans (hd (by simpa using c1)) l1)
              (Nat.le_trans (hd (by simpa using c1)) l2)

/-- With no unread rest the loop returns its state, whatever the fuel. -/
theorem cleanLoop_nil (rooted : Bool) (fuel : Nat) (out : Str) (dotdot : Nat) :
    cleanLoop rooted fuel [] out dotdot = (out, dotdot) := by
  cases fuel <;> rfl

/-- The look-ahead of the `.` case sees the end of `s` and a separator after `s`
alike. -/
theorem lookahead_append (s t : Str) :
    ((s ++ Separator :: t).isEmpty ||
        IsPathSeparator ((s ++ Separator :: t).headD Separator)) =
      (s.isEmpty || IsPathSeparator (s.headD Separator)) := by
  cases s with
  | nil => simp [IsPathSeparator]
  | cons d s => simp

/-- The look-ahead of the `..` case sees the end of `s` and a separator after `s`
alike. -/
theorem lookahead2_append (c : Char) (s t : Str) :
    (c == '.' && (s ++ Separator :: t).headD Separator == '.' &&
        ((s ++ Separator :: t).tail.isEmpty ||
          IsPathSeparator ((s ++ Separator :: t).tail.headD Separator))) =
      (c == '.' && s.headD Separator == '.' &&
        (s.tail.isEmpty || IsPathSeparator (s.tail.headD Separator))) := by
  cases s with
  | nil =>
    have h : (Separator == '.') = false := by decide
    simp [h]
  | cons d s =>
    simp only [List.cons_append, List.headD_cons, List.tail_cons]
    rw [lookahead_append]

/-- Reading `s`, a separator and then `t` is reading `s` and then reading `t` from
the state reached: the loop treats the end of the path and a separator alike. -/
theorem cleanLoop_append (rooted : Bool) (f3 : Nat) (t : Str) (ht : t.length ≤ f3) :
    ∀ (f1 f2 : Nat) (s out : Str) (dotdot : Nat),
      (s ++ Separator :: t).length ≤ f1 → s.length ≤ f2 →
      cleanLoop rooted f1 (s ++ Separator :: t) out dotdot =
        cleanLoop rooted f3 t (cleanLoop rooted f2 s out dotdot).1
          (cleanLoop rooted f2 s out dotdot).2 := by
  intro f1
  induction f1 with
  | zero =>
    intro f2 s out dotdot h1 _
    simp at h1
  | succ f1 ih =>
    intro f2 s out dotdot h1 h2
    cases s with
    | nil =>
      have hsep : IsPathSeparator Separator = true := by decide
      simp only [List.nil_append, cleanLoop, hsep, if_true, cleanLoop_nil]
      apply cleanLoop_fuel
      · simpa using h1
      · exact ht
    | cons c s =>
      cases f2 with
      | zero => simp at h2
      | succ f2 =>
        have l1 : (s ++ Separator :: t).length ≤ f1 := by
          simpa using h1
        have l2 : s.length ≤ f2 := by simpa using h2
        rw [show (c :: s) ++ Separator :: t = c :: (s ++ Separator :: t) from rfl]
        simp only [cleanLoop]
        rw [lookahead_append, lookahead2_append]
        have hd : (c :: (s ++ Separator :: t)).dropWhile (fun x => !IsPathSeparator x) =
            (c :: s).dropWhile (fun x => !IsPathSeparator x) ++ Separator :: t :=
          dropWhile_notSep_append (c :: s) t
        have htk : (c :: (s ++ Separator :: t)).takeWhile (fun x => !IsPathSeparator x) =
            (c :: s).takeWhile (fun x => !IsPathSeparator x) :=
          takeWhile_notSep_append (c :: s) t
        rw [hd, htk]
        have htail : (c == '.' && s.headD Separator == '.' &&
            (s.tail.isEmpty || IsPathSeparator (s.tail.headD Separator))) = true →
            (s ++ Separator :: t).tail = s.tail ++ Separator :: t ∧
            (s.tail ++ Separator :: t).length ≤ f1 ∧ s.tail.length ≤ f2 := by
          intro h3
          cases s with
          | nil =>
            have h : (Separator == '.') = false := by decide
            simp [h] at h3
          | cons d s =>
            refine ⟨rfl, ?_, ?_⟩
            · simp only [List.tail_cons, List.length_append, List.length_cons] at l1 ⊢
              omega
            · simp only [List.tail_cons, List.length_cons] at l2 ⊢
              omega
        have hdrop : IsPathSeparator c = false →
            ((c :: s).dropWhile (fun x => !IsPathSeparator x) ++ Separator :: t).length ≤ f1 ∧
            ((c :: s).dropWhile (fun x => !IsPathSeparator x)).length ≤ f2 := by
          intro hc
          have hle := length_dropWhile_le (fun x => !IsPathSeparator x) s
          simp only [List.dropWhile, hc, Bool.not_false, List.length_append, List.length_cons]
          simp only [List.length_append, List.length_cons] at l1
          omega
        split_ifs with c1 c2 c3 c4 c5 c6 c7
        all_goals first
          | exact ih _ _ _ _ l1 l2
          | (rw [(htail c3).1]; exact ih _ _ _ _ (htail c3).2.1 (htail c3).2.2)
          | exact ih _ _ _ _ (hdrop (by simpa using c1)).1 (hdrop (by simpa using c1)).2

/-- One real path element of at least three characters, read to the end of the
path, is appended to the buffer, after a separator when the buffer needs one. -/
theorem cleanLoop_element (rooted : Bool) (fuel : Nat) (e out : Str) (dotdot : Nat)
    (he : ∀ x ∈ e, IsPathSeparator x = false) (hl : 3 ≤ e.length) (hf : e.length ≤ fuel) :
    cleanLoop rooted fuel e out dotdot =
      ((if (rooted && out.length != 1) || (!rooted && out.length != 0) then
          out ++ [Separator] else out) ++ e, dotdot) := by
  match e, fuel with
  | c :: d :: f :: r, fuel + 1 =>
    have hc : IsPathSeparator c = false := he c (by simp)
    have hd : IsPathSeparator d = false := he d (by simp)
    have hf2 : IsPathSeparator f = false := he f (by simp)
    have htake : (c :: d :: f :: r).takeWhile (fun x => !IsPathSeparator x) =
        c :: d :: f :: r := by
      rw [List.takeWhile_eq_self_iff]
      intro x hx
      simp [he x hx]
    have hdrop : (c :: d :: f :: r).dropWhile (fun x => !IsPathSeparator x) = [] := by
      rw [List.dropWhile_eq_nil_iff]
      intro x hx
      simp [he x hx]
    simp only [cleanLoop, hc, hd, hf2, List.isEmpty_cons, List.headD_cons, List.tail_cons,
      Bool.or_self, Bool.and_false, Bool.false_eq_true, if_false, htake, hdrop, cleanLoop_nil]
  | [], _ => simp at hl
  | [_], _ => simp at hl
  | [_, _], _ => simp at hl
  | _ :: _ :: _ :: _, 0 => simp at hf

/-- A URL that ends with `.tgz` has a base name that ends with `.tgz` and contains
no separator. -/
theorem Base_of_tgz (url : Str) (h : HasSuffix url ".tgz".toList = true) :
    (∀ x ∈ Base url, IsPathSeparator x = false) ∧ 3 ≤ (Base url).length := by
  have hdrop : url.drop (url.length - 4) = ['.', 't', 'g', 'z'] := by
    simp only [HasSuffix, Bool.and_eq_true, decide_eq_true_eq, beq_iff_eq] at h
    exact h.2
  have hurl : url = url.take (url.length - 4) ++ ['.', 't', 'g', 'z'] := by
    rw [← hdrop, List.take_append_drop]
  generalize url.take (url.length - 4) = u at hurl
  subst hurl
  have hstrip : stripTrailingSeparators (u ++ ['.', 't', 'g', 'z']) = u ++ ['.', 't', 'g', 'z'] := by
    simp [stripTrailingSeparators, List.dropWhile, IsPathSeparator, Separator]
  have hlast : lastElement (u ++ ['.', 't', 'g', 'z']) =
      (u.reverse.takeWhile (fun x => !IsPathSeparator x)).reverse ++ ['.', 't', 'g', 'z'] := by
    simp [lastElement, List.takeWhile, IsPathSeparator, Separator]
  have hbase : Base (u ++ ['.', 't', 'g', 'z']) =
      (u.reverse.takeWhile (fun x => !IsPathSeparator x)).reverse ++ ['.', 't', 'g', 'z'] := by
    simp only [Base, hstrip, hlast]
    simp
  rw [hbase]
  constructor
  · intro x hx
    rw [List.mem_append] at hx
    rcases hx with hx | hx
    · rw [List.mem_reverse] at hx
      have := List.mem_takeWhile_imp hx
      simpa using this
    · simp only [List.mem_cons, List.mem_singleton, List.not_mem_nil, or_false] at hx
      rcases hx with rfl | rfl | rfl | rfl <;> decide
  · simp only [List.length_append, List.length_cons, List.length_nil]
    omega

/-- Dropping while a predicate holds skips a prefix on which it holds throughout. -/
theorem dropWhile_append_of_all (p : Char → Bool) (l r : Str) (h : ∀ x ∈ l, p x = true) :
    (l ++ r).dropWhile p = r.dropWhile p := by
  induction l with
  | nil => rfl
  | cons c l ih =>
    have hc : p c = true := h c (List.mem_cons_self _ _)
    simp only [List.cons_append, List.dropWhile, hc]
    exact ih fun x hx => h x (List.mem_cons_of_mem _ hx)

/-- The text up to the last separator, when what follows it has no separator. -/
theorem uptoLastSeparator_append (q b : Str) (hb : ∀ x ∈ b, IsPathSeparator x = false) :
    uptoLastSeparator (q ++ Separator :: b) = q ++ [Separator] := by
  have hrev : (q ++ Separator :: b).reverse = b.reverse ++ (Separator :: q.reverse) := by
    simp
  have hall : ∀ x ∈ b.reverse, (fun x => !IsPathSeparator x) x = true := by
    intro x hx
    rw [List.mem_reverse] at hx
    simp [hb x hx]
  have hsep : IsPathSeparator Separator = true := by decide
  unfold uptoLastSeparator
  rw [hrev, dropWhile_append_of_all _ _ _ hall]
  simp only [List.dropWhile, hsep, Bool.not_true]
  simp

/-- Cleaning a rooted path: the loop runs on what follows the leading separator. -/
theorem Clean_rooted (q : Str) (fuel : Nat) (hf : q.length ≤ fuel) :
    Clean (Separator :: q) =
      if (cleanLoop true fuel q [Separator] 1).1.length == 0 then ['.']
      else (cleanLoop true fuel q [Separator] 1).1 := by
  have hsep : IsPathSeparator Separator = true := by decide
  have hfuel : cleanLoop true (Separator :: q).length q [Separator] 1 =
      cleanLoop true fuel q [Separator] 1 :=
    cleanLoop_fuel true _ _ _ _ _ (by simp) hf
  simp only [Clean, List.isEmpty_cons, Bool.false_eq_true, if_false, List.headD_cons, hsep,
    if_true, List.tail_cons, hfuel]

/-- C10: for every chart URL that ends with `.tgz` and every clean absolute scratch
directory `tempDir`, the download path `filepath.Join(tempDir, filepath.Base(url))`
is `tempDir`, a separator (unless `tempDir` is the root) and the base name, which
holds no separator; and `filepath.Dir` of the download path is `tempDir`, so the
deferred `os.RemoveAll(filepath.Dir(tempFilePath))` is called on the scratch
directory itself. -/
theorem download_path_parent (url tempDir : Str) (hs : HasSuffix url ".tgz".toList = true)
    (habs : IsAbs tempDir = true) (hclean : Clean tempDir = tempDir) :
    Dir (Join [tempDir, Base url]) = tempDir ∧
    (∀ x ∈ Base url, IsPathSeparator x = false) ∧
    Join [tempDir, Base url] =
      (if tempDir = [Separator] then tempDir else tempDir ++ [Separator]) ++ Base url := by
  obtain ⟨hb, hb3⟩ := Base_of_tgz url hs
  generalize Base url = b at hb hb3 ⊢
  cases tempDir with
  | nil => simp [IsAbs, Separator] at habs
  | cons c q =>
    have hc : c = Separator := by simpa [IsAbs] using habs
    subst hc
    -- the loop on `q` ends with the buffer holding `tempDir`
    have hq : (cleanLoop true q.length q [Separator] 1).1 = Separator :: q := by
      have h := Clean_rooted q q.length (Nat.le_refl _)
      rw [hclean] at h
      split at h
      · cases h
      · exact h.symm
    -- the join
    have hjoin : Join [Separator :: q, b] =
        (if q = [] then [Separator] else Separator :: q ++ [Separator]) ++ b := by
      have hne : ((Separator :: q) != []) = true := by simp
      simp only [Join, hne, if_true, stringsJoin]
      rw [show Separator :: q ++ [Separator] ++ b = Separator :: (q ++ Separator :: b) by simp]
      rw [Clean_rooted (q ++ Separator :: b) (q ++ Separator :: b).length (Nat.le_refl _)]
      rw [cleanLoop_append true b.length b (Nat.le_refl _) _ q.length q _ _ (Nat.le_refl _)
        (Nat.le_refl _)]
      rw [cleanLoop_element true b.length b _ _ hb hb3 (Nat.le_refl _), hq]
      cases q <;> simp
    refine ⟨?_, hb, ?_⟩
    · rw [hjoin]
      by_cases hq0 : q = []
      · subst hq0
        have h1 := uptoLastSeparator_append [] b hb
        simp only [List.nil_append] at h1
        simp only [if_true, Dir, List.singleton_append, h1]
        decide
      · rw [if_neg hq0, Dir, List.append_assoc, List.singleton_append,
          uptoLastSeparator_append _ b hb]
        rw [show Separator :: q ++ [Separator] = Separator :: (q ++ Separator :: []) by simp]
        rw [Clean_rooted (q ++ Separator :: []) (q ++ Separator :: []).length (Nat.le_refl _)]
        rw [cleanLoop_append true 0 [] (Nat.le_refl _) _ q.length q _ _ (Nat.le_refl _)
          (Nat.le_refl _)]
        rw [cleanLoop_nil, hq]
        simp
    · rw [hjoin]
      cases q <;> simp

/-- Witness for C10: the sample URL and the scratch directory
`/tmp/helm-template-1`. -/
theorem download_path_parent_witness :
    Dir (Join ["/tmp/helm-template-1".toList, Base "http://h/a.tgz".toList]) =
      "/tmp/helm-template-1".toList :=
  (download_path_parent "http://h/a.tgz".toList "/tmp/helm-template-1".toList
    (by decide) (by decide) (by decide)).1

end HelmIt
